import Mathlib

/-!
Shallow embedding of the offline immunization tracker's record store and
status engine, translated from the repository's JavaScript source
(`src/unnamed/part_000` for the single-facility app, `src/App.js` for the
multi-facility security layer), together with theorems settling the frozen
claims about it.

Modelling conventions:
* JavaScript `Date` values are instants measured in milliseconds since the
  epoch, modelled as `Int`.  A date-string field that may be empty
  (`dateGiven`, `nextVisit`) is modelled as `Option Int`: `none` models the
  empty string `''` (falsy in JS), `some t` models a non-empty date string
  whose `new Date(...)` value is the instant `t`.
* Free-text fields (`batchNumber`, `placeGiven`, `remarks`) are `String`s;
  JS truthiness of such a field is `≠ ""`.
* `child.createdAt` is only ever consumed through `getFullYear()`, so it is
  modelled as `Option Nat`, the calendar year (`none` models a missing
  `createdAt`, for which the code falls back to the current date).
* Stateful Dexie code is modelled as explicit state passing.  A sequence of
  awaited database operations is a list of atomic blocks
  (`List (σ → σ)`); a Dexie `db.transaction(...)` is a single block, while
  operations not wrapped in a transaction are separate blocks.  A crash can
  occur between blocks, so the observable states of a run are exactly the
  states after each prefix of blocks (`runBlocks`).
-/

namespace ImmunizationTracker

/-- One vaccination dose record, as stored in the `vaccinations` Dexie
collection (`src/unnamed/part_000`, schema line 5 and the save path). -/
structure Dose where
  childId : Nat
  vaccine : String
  dateGiven : Option Int
  batchNumber : String
  placeGiven : String
  remarks : String
  nextVisit : Option Int
  status : String
deriving DecidableEq

/-- One child record, as stored in the `children` collection, with its
in-memory `vaccinations` array attached (as `initApp` loads it). -/
structure Child where
  id : Nat
  regNo : String
  name : String
  createdAt : Option Nat
  vaccinations : List Dose
deriving DecidableEq

/-- Milliseconds per day, the divisor `1000 * 60 * 60 * 24` used throughout
the source's day-delta computations. -/
def msPerDay : Int := 86400000

/-- The source's `Math.floor((today - nextVisitDate) / (1000*60*60*24))`: the
`daysOverdue` computation of the source, for a dose instant `t` and current
instant `now`.  `Math.floor` of a real quotient is floor division. -/
def daysOverdueOf (t now : Int) : Int := Int.fdiv (now - t) msPerDay

/-- The source's `Math.ceil((nextVisitDate - today) / (1000*60*60*24))`: the `daysUntil`
computation of the source.  `Math.ceil x = -Math.floor (-x)`. -/
def daysUntilOf (t now : Int) : Int := -(Int.fdiv (now - t) msPerDay)

/-! ### Status engine: per-dose classification predicates

Each predicate is the guard of one branch of the source.  The guard
`vaccination.nextVisit && !vaccination.dateGiven` appears in `updateStats`
and in every summary-table filter. -/

/-- A dose counts as overdue: `nextVisit && !dateGiven && new
Date(nextVisit) < today` (`updateStats` line 1148, `updateDefaultersTable`
lines 964-970). -/
def overdueDose (v : Dose) (now : Int) : Bool :=
  match v.nextVisit, v.dateGiven with
  | some t, none => decide (t < now)
  | _, _ => false

/-- A dose sets the due-soon flag in `updateStats` (lines 1150-1153): not
overdue and `daysUntil <= 7`. -/
def statsDueSoonDose (v : Dose) (now : Int) : Bool :=
  match v.nextVisit, v.dateGiven with
  | some t, none => !decide (t < now) && decide (daysUntilOf t now ≤ 7)
  | _, _ => false

/-- A dose sets the upcoming flag in `updateStats` (lines 1154-1156): not
overdue, `daysUntil > 7` and `daysUntil <= 30`. -/
def statsUpcomingDose (v : Dose) (now : Int) : Bool :=
  match v.nextVisit, v.dateGiven with
  | some t, none =>
      !decide (t < now) && !decide (daysUntilOf t now ≤ 7) &&
        decide (daysUntilOf t now ≤ 30)
  | _, _ => false

/-- The filter of `updateDueSoonTable` (lines 1022-1029):
`daysUntil > 0 && daysUntil <= 7`. -/
def tableDueSoonDose (v : Dose) (now : Int) : Bool :=
  match v.nextVisit, v.dateGiven with
  | some t, none => decide (0 < daysUntilOf t now) && decide (daysUntilOf t now ≤ 7)
  | _, _ => false

/-- The filter of `updateUpcomingTable` (lines 1081-1088):
`daysUntil > 7 && daysUntil <= 30`. -/
def tableUpcomingDose (v : Dose) (now : Int) : Bool :=
  match v.nextVisit, v.dateGiven with
  | some t, none => decide (7 < daysUntilOf t now) && decide (daysUntilOf t now ≤ 30)
  | _, _ => false

/-! ### `updateStats` (lines 1131-1170) -/

/-- The body of the inner `forEach` of `updateStats`: one dose updates the
`(isDefaulter, isDueSoon, isUpcoming)` flag triple through the source's
if/else-if chain. -/
def statsStep (now : Int) (f : Bool × Bool × Bool) (v : Dose) : Bool × Bool × Bool :=
  match v.nextVisit, v.dateGiven with
  | some t, none =>
      if t < now then (true, f.2.1, f.2.2)
      else if daysUntilOf t now ≤ 7 then (f.1, true, f.2.2)
      else if daysUntilOf t now ≤ 30 then (f.1, f.2.1, true)
      else f
  | _, _ => f

/-- The per-child flag loop of `updateStats`: starting from
`(isDefaulter, isDueSoon, isUpcoming) = (false, false, false)`, fold
`statsStep` over the child's doses. -/
def statsFlags (vs : List Dose) (now : Int) : Bool × Bool × Bool :=
  vs.foldl (statsStep now) (false, false, false)

/-- The body of the outer `forEach` of `updateStats`: one child bumps each
counter whose flag its doses set. -/
def statsCountStep (now : Int) (acc : Nat × Nat × Nat) (ch : Child) : Nat × Nat × Nat :=
  let f := statsFlags ch.vaccinations now
  (acc.1 + (if f.1 then 1 else 0),
   acc.2.1 + (if f.2.1 then 1 else 0),
   acc.2.2 + (if f.2.2 then 1 else 0))

/-- The three summary counters of `updateStats`
(`defaulterCount`, `dueSoonCount`, `upcomingCount`): each child whose flag
is set contributes one. -/
def updateStatsCounts (cs : List Child) (now : Int) : Nat × Nat × Nat :=
  cs.foldl (statsCountStep now) (0, 0, 0)

/-! ### Summary tables (lines 954-1128) -/

/-- The `new Date(v.nextVisit)` value of a dose in a summary-table reduce;
qualifying doses always have `nextVisit` set, so the default is never
reached there. -/
def nvVal (v : Dose) : Int := v.nextVisit.getD 0

/-- The source's `reduce((prev, current) => prevDate < currentDate ? prev :
current)` over a non-empty qualifying list: `d` is the first element, `ds`
the rest. -/
def reduceMin (d : Dose) (ds : List Dose) : Dose :=
  ds.foldl (fun prev cur => if nvVal prev < nvVal cur then prev else cur) d

/-- One row pushed onto a summary table: the child's `regNo`, the featured
dose chosen by the reduce, and its day delta. -/
structure TableEntry where
  regNo : String
  dose : Dose
  days : Int
deriving DecidableEq

/-- Common shape of `updateDefaultersTable` / `updateDueSoonTable` /
`updateUpcomingTable`: walk the children, skip a child whose `regNo` is in
the `countedChildren` set, filter its doses by `qualifies`, and if any
qualify, push one row featuring the reduce-chosen dose with day delta
`delta`. -/
def summaryStep (qualifies : Dose → Int → Bool) (delta : Int → Int → Int)
    (now : Int) (acc : List String × List TableEntry) (ch : Child) :
    List String × List TableEntry :=
  if ch.regNo ∈ acc.1 then acc
  else
    match ch.vaccinations.filter (fun v => qualifies v now) with
    | [] => acc
    | d :: rest =>
        let m := reduceMin d rest
        (ch.regNo :: acc.1, acc.2 ++ [⟨ch.regNo, m, delta (nvVal m) now⟩])

/-- Fold `summaryStep` over the children from an empty `countedChildren`
set and an empty table. -/
def summaryTable (qualifies : Dose → Int → Bool) (delta : Int → Int → Int)
    (cs : List Child) (now : Int) : List TableEntry :=
  (cs.foldl (summaryStep qualifies delta now) ([], [])).2

/-- Source function `updateDefaultersTable` (lines 955-1010). -/
def updateDefaultersList (cs : List Child) (now : Int) : List TableEntry :=
  summaryTable overdueDose daysOverdueOf cs now

/-- Source function `updateDueSoonTable` (lines 1013-1069). -/
def updateDueSoonList (cs : List Child) (now : Int) : List TableEntry :=
  summaryTable tableDueSoonDose daysUntilOf cs now

/-- Source function `updateUpcomingTable` (lines 1072-1128). -/
def updateUpcomingList (cs : List Child) (now : Int) : List TableEntry :=
  summaryTable tableUpcomingDose daysUntilOf cs now

/-! ### Save path `saveImmunization` (lines 446-540) -/

/-- One row of the immunization modal table, as read back by
`saveImmunization`: the vaccine label plus the four editable inputs. -/
structure VaccRow where
  vaccine : String
  dateGiven : Option Int
  batchNumber : String
  placeGiven : String
  remarks : String
deriving DecidableEq

/-- The persist condition of the save path (line 480):
`dateGiven || batchNumber || placeGiven || remarks`. -/
def rowHasData (r : VaccRow) : Bool :=
  r.dateGiven.isSome || !(r.batchNumber = "") || !(r.placeGiven = "") || !(r.remarks = "")

/-- The validation loop of `saveImmunization` (lines 452-465): a row is
rejected when `dateGiven && (!batchNumber || !placeGiven || !remarks)`. -/
def rowsValid (rows : List VaccRow) : Bool :=
  rows.all fun r =>
    !(r.dateGiven.isSome &&
      ((r.batchNumber = "") || (r.placeGiven = "") || (r.remarks = "")))

/-- The dose record built from a row with data (lines 482-491): `nextVisit`
is always the empty string and `status` is `'completed'` when a date was
given, `'pending'` otherwise. -/
def rowDose (cid : Nat) (r : VaccRow) : Dose :=
  { childId := cid, vaccine := r.vaccine, dateGiven := r.dateGiven,
    batchNumber := r.batchNumber, placeGiven := r.placeGiven,
    remarks := r.remarks, nextVisit := none,
    status := if r.dateGiven.isSome then "completed" else "pending" }

/-- The dose record built for a booked next visit (lines 498-511): empty
`dateGiven`, the chosen `nextVisit` date, `status` `'scheduled'`. -/
def bookingDose (cid : Nat) (nextVisitDate : Int) (vaccine : String) : Dose :=
  { childId := cid, vaccine := vaccine, dateGiven := none,
    batchNumber := "", placeGiven := "", remarks := "",
    nextVisit := some nextVisitDate, status := "scheduled" }

/-- The full set of dose records inserted by one save (lines 472-512): the
rows that have any data, followed by — when a next visit is booked with a
date and a non-empty vaccine selection — one scheduled record per selected
vaccine. -/
def savedDoses (cid : Nat) (rows : List VaccRow)
    (booking : Option (Int × List String)) : List Dose :=
  (rows.filter rowHasData).map (rowDose cid) ++
    (match booking with
     | some (date, vs) => if vs.isEmpty then [] else vs.map (bookingDose cid date)
     | none => [])

/-! ### `updateDefaulterStatus` (lines 543-550) -/

/-- Source function `updateDefaulterStatus`: the recomputed `isDefaulter` boolean.  The
source tests only `vaccination.nextVisit` and compares it to `today`; it
never consults `dateGiven`. -/
def updateDefaulterStatus (vs : List Dose) (now : Int) : Bool :=
  vs.any fun v =>
    match v.nextVisit with
    | none => false
    | some t => decide (t < now)

/-- Defaulter predicate written from the claim's words, for comparison with
`updateDefaulterStatus`: at least one dose whose scheduled next-visit date
has passed *without the dose being recorded as given* (`dateGiven`
empty). -/
def claimDefaulterPred (vs : List Dose) (now : Int) : Bool :=
  vs.any fun v =>
    match v.nextVisit, v.dateGiven with
    | some t, none => decide (t < now)
    | _, _ => false

/-! ### Crash semantics of awaited Dexie operation sequences -/

/-- Run a list of atomic blocks from `s`, collecting the state after every
prefix (the initial state included).  A crash may occur between blocks, so
these are exactly the states an interrupted run can leave behind. -/
def runBlocks {σ : Type} (s : σ) : List (σ → σ) → List σ
  | [] => [s]
  | f :: fs => s :: runBlocks (f s) fs

/-- One `db.vaccinations.where('childId').equals(child.id).delete()`
(line 469). -/
def deleteDosesOfChild (cid : Nat) (s : List Dose) : List Dose :=
  s.filter fun d => !(d.childId = cid)

/-- A single `db.vaccinations.add(...)`. -/
def addDose (d : Dose) (s : List Dose) : List Dose := s ++ [d]

/-- The awaited operation sequence of `saveImmunization` on the
`vaccinations` collection: one delete of the child's existing records,
then one add per new record.  The source wraps none of these in a
`db.transaction`, so every operation is its own atomic block. -/
def saveImmunizationBlocks (cid : Nat) (newDoses : List Dose) :
    List (List Dose → List Dose) :=
  deleteDosesOfChild cid :: newDoses.map addDose

/-! ### Backup/restore (lines 662-725) -/

/-- A record of the `facility` collection (only its identity matters to the
restore path, which clears and bulk-inserts it opaquely). -/
structure FacilityRec where
  id : Nat
  name : String
deriving DecidableEq

/-- The three collections touched by restore. -/
structure AppStore where
  children : List Child
  vaccinations : List Dose
  facility : List FacilityRec
deriving DecidableEq

/-- A parsed backup document.  A field is `none` when the corresponding
top-level key is absent (or falsy) in the parsed JSON, `some` when it holds
an array (`some []` for an empty array, which is truthy in JS). -/
structure BackupDoc where
  children : Option (List Child)
  vaccinations : Option (List Dose)
  facility : Option (List FacilityRec)
deriving DecidableEq

/-- The restore handler's failure: `throw new Error('Invalid backup file
format')` (line 696). -/
inductive RestoreError where
  | formatError
deriving DecidableEq

/-- The body of the restore `db.transaction` (lines 704-713): clear all
three collections, then bulk-add each collection present in the
document. -/
def restoreTransaction (doc : BackupDoc) (_s : AppStore) : AppStore :=
  { children := doc.children.getD [],
    vaccinations := doc.vaccinations.getD [],
    facility := doc.facility.getD [] }

/-- The restore handler: the format check `!data.children ||
!data.vaccinations` throws before any mutation; otherwise the whole
clear-then-bulk-insert runs inside one `db.transaction`, i.e. one atomic
block. -/
def restoreBlocks (doc : BackupDoc) :
    Except RestoreError (List (AppStore → AppStore)) :=
  if doc.children.isNone || doc.vaccinations.isNone then .error .formatError
  else .ok [restoreTransaction doc]

/-- The observable states of a restore run from `s0` (crashes may occur
between blocks only, never inside the transaction). -/
def restoreStates (doc : BackupDoc) (s0 : AppStore) : List AppStore :=
  match restoreBlocks doc with
  | .error _ => [s0]
  | .ok bs => runBlocks s0 bs

/-! ### Vaccination schedule and booking (lines 128-163, 369-419) -/

/-- The static `vaccinationSchedule` array, verbatim. -/
def vaccinationSchedule : List String :=
  ["BCG at Birth",
   "OPV0 at Birth",
   "Hepatitis B at Birth",
   "OPV1 at 6 weeks",
   "Penta1 at 6 weeks",
   "PCV1 at 6 weeks",
   "Rotavirus1 at 6 weeks",
   "OPV2 at 10 weeks",
   "Penta2 at 10 weeks",
   "PCV2 at 10 weeks",
   "Rotavirus2 at 10 weeks",
   "OPV3 at 14 weeks",
   "Penta3 at 14 weeks",
   "PCV3 at 14 weeks",
   "Rotavirus3 at 14 weeks",
   "IPV1 at 14 weeks",
   "Malaria1 at 6 months",
   "Malaria2 at 7 months",
   "IPV2 at 7 months",
   "Malaria3 at 9 months",
   "Measles Rubella1 at 9 months",
   "Malaria4 at 18 months",
   "Measles Rubella2 at 18 months",
   "Men A at 18 months",
   "Vitamin A at 6 months",
   "Vitamin A at 12 months",
   "Vitamin A at 18 months",
   "Vitamin A at 24 months",
   "Vitamin A at 30 months",
   "Vitamin A at 36 months",
   "Vitamin A at 42 months",
   "Vitamin A at 48 months",
   "Vitamin A at 54 months",
   "Vitamin A at 60 months"]

/-- The bookable-vaccine computation of `openBookingModal` (lines 378-397).
`unsaved` is the child's sub-mapping of `unsavedVaccinations`, as
(vaccine, pending date string) pairs; a pair with an empty date string is
falsy and does not exclude its vaccine. -/
def availableVaccines (child : Child) (unsaved : List (String × String)) :
    List String :=
  let givenVaccines :=
    (child.vaccinations.filter fun v => v.dateGiven.isSome).map (·.vaccine)
  let vaccinesWithUnsavedDates :=
    (unsaved.filter fun p => !(p.2 = "")).map (·.1)
  let bookedVaccines :=
    (child.vaccinations.filter fun v => v.nextVisit.isSome && v.dateGiven.isNone).map (·.vaccine)
  vaccinationSchedule.filter fun v =>
    !(givenVaccines.contains v) && !(bookedVaccines.contains v) &&
      !(vaccinesWithUnsavedDates.contains v)

/-! ### Registration numbers: `generateRegNo` (lines 166-182) -/

/-- Decimal digit characters of a positive number, most significant first:
the char list underlying JS `String(n)`.  The first argument is fuel;
`natChars` instantiates it so the recursion always has enough. -/
def natCharsAux : Nat → Nat → List Char
  | 0, _ => []
  | _ + 1, 0 => []
  | fuel + 1, n + 1 =>
      natCharsAux fuel ((n + 1) / 10) ++ [Char.ofNat (48 + (n + 1) % 10)]

/-- The char list of JS `String(n)` for a natural number. -/
def natChars (n : Nat) : List Char :=
  if n = 0 then ['0'] else natCharsAux n n

/-- JS `s.padStart(3, '0')` on a char list. -/
def padStart3 (l : List Char) : List Char :=
  List.replicate (3 - l.length) '0' ++ l

/-- The template string `` `${String(count).padStart(3, '0')}/${year}` ``. -/
def formatRegNo (count year : Nat) : String :=
  String.mk (padStart3 (natChars count) ++ '/' :: natChars year)

/-- The collision test of the `while` loop:
`children.some(child => child.regNo === regNo)`. -/
def regNoTaken (cs : List Child) (r : String) : Bool :=
  cs.any fun c => c.regNo = r

/-- The `while` loop of `generateRegNo`: increment `count` as long as the
formatted number collides.  The loop always terminates because at most
`cs.length` registration numbers exist while successive candidates are
pairwise distinct strings; the fuel `cs.length + 1` therefore suffices
(proved below), and on exhausted fuel the current count is returned. -/
def regNoLoop (cs : List Child) (year : Nat) : Nat → Nat → Nat
  | 0, count => count
  | fuel + 1, count =>
      if regNoTaken cs (formatRegNo count year) then
        regNoLoop cs year fuel (count + 1)
      else count

/-- The starting count of `generateRegNo`: the number of children created
in the current calendar year (a missing `createdAt` falls back to
`new Date()`, hence the current year), plus one. -/
def regNoBase (cs : List Child) (year : Nat) : Nat :=
  (cs.filter fun c => c.createdAt.getD year = year).length + 1

/-- Source function `generateRegNo`: start at the per-year count plus one
and bump past collisions. -/
def generateRegNo (cs : List Child) (year : Nat) : String :=
  formatRegNo (regNoLoop cs year (cs.length + 1) (regNoBase cs year)) year

/-- The spec's registration-number pattern `^\d{3}/\d{4}$`: exactly three
digits, a slash, exactly four digits. -/
def matchesRegNoPattern (s : String) : Bool :=
  match s.data with
  | [a, b, c, s, d, e, f, g] =>
      a.isDigit && b.isDigit && c.isDigit && (s = '/') &&
        d.isDigit && e.isDigit && f.isDigit && g.isDigit
  | _ => false

/-! ### Security answers: `verifySecurityAnswers` (`src/App.js` lines
98-121) -/

/-- One stored security question/answer pair of a facility. -/
structure SecurityQA where
  question : String
  answer : String
deriving DecidableEq

/-- JS `s.toLowerCase()`, modelled characterwise over the string's char
list. -/
def toLowerStr (s : String) : String := String.mk (s.data.map Char.toLower)

/-- JS `s.trim()`: drop leading and trailing whitespace. -/
def trimStr (s : String) : String :=
  String.mk (((s.data.dropWhile Char.isWhitespace).reverse.dropWhile
    Char.isWhitespace).reverse)

/-- The `forEach` of `verifySecurityAnswers`, indexed from `i`: the answer
typed into field `index` is trimmed and lower-cased and compared with the
lower-cased stored answer; `allCorrect` survives only if every comparison
succeeds. -/
def verifyAnswersAux (qs : List SecurityQA) (ans : Nat → String) (i : Nat) : Bool :=
  match qs with
  | [] => true
  | q :: rest =>
      (trimStr (ans i) |> toLowerStr) = toLowerStr q.answer && verifyAnswersAux rest ans (i + 1)

/-- Source function `verifySecurityAnswers` for a facility with stored questions `qs` and
the user's typed answers `ans` (indexed by question position): `true` is
the `allCorrect` path that advances the recovery flow to step 3. -/
def verifySecurityAnswers (qs : List SecurityQA) (ans : Nat → String) : Bool :=
  verifyAnswersAux qs ans 0

/-- Step-2 success predicate written from the claim's words, for comparison
with `verifySecurityAnswers`: the user's trimmed and case-folded answer
must exactly equal the *stored* answer. -/
def claimAnswersPred (qs : List SecurityQA) (ans : Nat → String) : Bool :=
  (List.range qs.length).all fun i =>
    (trimStr (ans i) |> toLowerStr) = ((qs.get? i).map SecurityQA.answer).getD ""

/-! ### Concrete records used by the claim-level evaluations -/

/-- A scheduled dose whose next visit was yesterday (relative to `now = 0`). -/
def overdueYesterday : Dose :=
  ⟨1, "OPV1 at 6 weeks", none, "", "", "", some (-86400000), "scheduled"⟩

/-- A scheduled dose due in three days (relative to `now = 0`). -/
def dueInThreeDays : Dose :=
  ⟨1, "PCV1 at 6 weeks", none, "", "", "", some 259200000, "scheduled"⟩

/-- A child holding one overdue dose and one due-soon dose. -/
def childOverdueAndDueSoon : Child :=
  ⟨1, "001/2026", "Ama", some 2026, [overdueYesterday, dueInThreeDays]⟩

/-- First of two doses sharing the same next-visit instant. -/
def tieDoseA : Dose :=
  ⟨2, "OPV1 at 6 weeks", none, "", "", "", some 86400000, "scheduled"⟩

/-- Second of two doses sharing the same next-visit instant. -/
def tieDoseB : Dose :=
  ⟨2, "PCV1 at 6 weeks", none, "", "", "", some 86400000, "scheduled"⟩

/-- A child holding two due-soon doses tied on the next-visit date. -/
def childTie : Child := ⟨2, "002/2026", "Kofi", some 2026, [tieDoseA, tieDoseB]⟩

/-- A persisted dose of child 1 before a re-save. -/
def priorDose : Dose := ⟨1, "BCG at Birth", some 0, "b", "p", "r", none, "completed"⟩

/-- The dose the re-save submits for child 1. -/
def resubmittedDose : Dose :=
  ⟨1, "BCG at Birth", some 0, "b2", "p", "r", none, "completed"⟩

/-- A dose recorded as given whose old `nextVisit` lies in the past
(reachable, e.g., through a restored backup). -/
def staleCompletedDose : Dose :=
  ⟨1, "OPV0 at Birth", some 5, "b", "p", "r", some (-86400000), "completed"⟩

/-- A modal row with only its batch number filled in. -/
def batchOnlyRow : VaccRow := ⟨"BCG at Birth", none, "B1", "", ""⟩

/-- A register with 999 children created in 2026 (none of whose `regNo`s
collide with freshly generated ones). -/
def children999 : List Child := (List.range 999).map fun i => ⟨i, "", "c", some 2026, []⟩

/-! ## Theorems -/

/-! ### C1: per-child bucket membership in the summary aggregations -/

theorem statsStep_eq (now : Int) (f : Bool × Bool × Bool) (v : Dose) :
    statsStep now f v =
      (f.1 || overdueDose v now, f.2.1 || statsDueSoonDose v now,
        f.2.2 || statsUpcomingDose v now) := by
  rcases f with ⟨a, b, c⟩
  rcases v with ⟨cid, vac, dg, bn, pg, rm, nv, st⟩
  rcases nv with _ | t
  · rcases dg with _ | g <;> simp [statsStep, overdueDose, statsDueSoonDose, statsUpcomingDose]
  · rcases dg with _ | g
    · simp only [statsStep, overdueDose, statsDueSoonDose, statsUpcomingDose]
      split_ifs with h1 h2 h3 <;> simp_all
    · simp [statsStep, overdueDose, statsDueSoonDose, statsUpcomingDose]

theorem statsFlags_eq (vs : List Dose) (now : Int) :
    statsFlags vs now =
      (vs.any (overdueDose · now), vs.any (statsDueSoonDose · now),
        vs.any (statsUpcomingDose · now)) := by
  have H : ∀ (l : List Dose) (f : Bool × Bool × Bool),
      l.foldl (statsStep now) f =
        (f.1 || l.any (overdueDose · now), f.2.1 || l.any (statsDueSoonDose · now),
          f.2.2 || l.any (statsUpcomingDose · now)) := by
    intro l
    induction l with
    | nil => intro f; simp
    | cons v l ih =>
        intro f
        rw [List.foldl_cons, ih, statsStep_eq]
        simp [Bool.or_assoc]
  rw [statsFlags, H]
  simp

theorem updateStatsCounts_eq (cs : List Child) (now : Int) :
    updateStatsCounts cs now =
      ((cs.filter fun ch => ch.vaccinations.any (overdueDose · now)).length,
       (cs.filter fun ch => ch.vaccinations.any (statsDueSoonDose · now)).length,
       (cs.filter fun ch => ch.vaccinations.any (statsUpcomingDose · now)).length) := by
  have H : ∀ (l : List Child) (x y z : Nat),
      l.foldl (statsCountStep now) (x, y, z) =
        (x + (l.filter fun ch => ch.vaccinations.any (overdueDose · now)).length,
         y + (l.filter fun ch => ch.vaccinations.any (statsDueSoonDose · now)).length,
         z + (l.filter fun ch => ch.vaccinations.any (statsUpcomingDose · now)).length) := by
    intro l
    induction l with
    | nil => intro x y z; simp
    | cons ch l ih =>
        intro x y z
        rw [List.foldl_cons]
        show l.foldl (statsCountStep now) (statsCountStep now (x, y, z) ch) = _
        rw [statsCountStep, statsFlags_eq, ih]
        refine Prod.ext ?_ (Prod.ext ?_ ?_)
        all_goals
          simp only [List.filter_cons]
          split_ifs <;> (simp; try omega)
  rw [updateStatsCounts, H]
  simp

theorem summaryFold_regNos (q : Dose → Int → Bool) (delta : Int → Int → Int) (now : Int) :
    ∀ (cs : List Child) (seen : List String) (rows : List TableEntry),
      (∀ ch ∈ cs, ch.regNo ∉ seen) → (cs.map (·.regNo)).Nodup →
      ((cs.foldl (summaryStep q delta now) (seen, rows)).2).map (·.regNo) =
        rows.map (·.regNo) ++
          (cs.filter fun ch => ch.vaccinations.any fun v => q v now).map (·.regNo) := by
  intro cs
  induction cs with
  | nil => intro seen rows _ _; simp
  | cons ch cs ih =>
      intro seen rows hdisj hnodup
      rw [List.foldl_cons]
      have hch : ch.regNo ∉ seen := hdisj ch (List.mem_cons_self _ _)
      rw [List.map_cons, List.nodup_cons] at hnodup
      have hrest : ∀ ch' ∈ cs, ch'.regNo ∉ seen := fun ch' h => hdisj ch' (List.mem_cons_of_mem _ h)
      rw [summaryStep, if_neg hch]
      rcases hfil : ch.vaccinations.filter (fun v => q v now) with _ | ⟨d, rest⟩
      · have hany : ch.vaccinations.any (fun v => q v now) = false := by
          rw [List.any_eq_false]
          intro v hv
          have := List.filter_eq_nil_iff.mp hfil v hv
          simpa using this
        rw [ih seen rows hrest hnodup.2, List.filter_cons, hany]
        simp
      · have hany : ch.vaccinations.any (fun v => q v now) = true := by
          rw [List.any_eq_true]
          have hd : d ∈ ch.vaccinations.filter (fun v => q v now) := by
            rw [hfil]; exact List.mem_cons_self _ _
          rcases List.mem_filter.mp hd with ⟨hmem, hq⟩
          exact ⟨d, hmem, hq⟩
        have hrest' : ∀ ch' ∈ cs, ch'.regNo ∉ ch.regNo :: seen := by
          intro ch' h
          rw [List.mem_cons]
          push_neg
          refine ⟨?_, hrest ch' h⟩
          intro he
          exact hnodup.1 (he ▸ List.mem_map_of_mem (·.regNo) h)
        rw [ih (ch.regNo :: seen) _ hrest' hnodup.2, List.filter_cons, hany]
        simp

/-- C1, corrected.  In `updateStats` each summary counter is the number of
children owning at least one dose satisfying that bucket's own predicate,
and (for children with pairwise distinct registration numbers) each summary
table lists exactly those children, one row each.  So a child is counted at
most once per bucket, but bucket membership is *not* mutually exclusive:
each bucket is computed independently of the others, and a child with an
overdue dose is also counted as due-soon or upcoming whenever another of
its doses falls in that window. -/
theorem c1_buckets_counted_once_but_not_exclusive (cs : List Child) (now : Int) :
    updateStatsCounts cs now =
      ((cs.filter fun ch => ch.vaccinations.any (overdueDose · now)).length,
       (cs.filter fun ch => ch.vaccinations.any (statsDueSoonDose · now)).length,
       (cs.filter fun ch => ch.vaccinations.any (statsUpcomingDose · now)).length) ∧
    ((cs.map (·.regNo)).Nodup →
      (updateDefaultersList cs now).map (·.regNo) =
          (cs.filter fun ch => ch.vaccinations.any (overdueDose · now)).map (·.regNo) ∧
        (updateDueSoonList cs now).map (·.regNo) =
          (cs.filter fun ch => ch.vaccinations.any (tableDueSoonDose · now)).map (·.regNo) ∧
        (updateUpcomingList cs now).map (·.regNo) =
          (cs.filter fun ch => ch.vaccinations.any (tableUpcomingDose · now)).map (·.regNo)) := by
  refine ⟨updateStatsCounts_eq cs now, fun hnodup => ⟨?_, ?_, ?_⟩⟩ <;>
    · simp only [updateDefaultersList, updateDueSoonList, updateUpcomingList, summaryTable]
      rw [summaryFold_regNos _ _ _ cs [] [] (by simp) hnodup]
      simp

/-- Witness for `c1_buckets_counted_once_but_not_exclusive` at a concrete
one-child register. -/
theorem c1_buckets_witness :
    updateStatsCounts [childOverdueAndDueSoon] 0 =
        (([childOverdueAndDueSoon].filter fun ch =>
            ch.vaccinations.any (overdueDose · 0)).length,
         ([childOverdueAndDueSoon].filter fun ch =>
            ch.vaccinations.any (statsDueSoonDose · 0)).length,
         ([childOverdueAndDueSoon].filter fun ch =>
            ch.vaccinations.any (statsUpcomingDose · 0)).length) ∧
      (updateDefaultersList [childOverdueAndDueSoon] 0).map (·.regNo) =
        ([childOverdueAndDueSoon].filter fun ch =>
          ch.vaccinations.any (overdueDose · 0)).map (·.regNo) :=
  ⟨(c1_buckets_counted_once_but_not_exclusive [childOverdueAndDueSoon] 0).1,
   ((c1_buckets_counted_once_but_not_exclusive [childOverdueAndDueSoon] 0).2 (by decide)).1⟩

/-- C1 counterexample: a child with one overdue dose and one due-soon dose
is counted in the defaulter bucket *and* in the due-soon bucket — in the
`updateStats` counters and in the summary tables alike — contradicting the
claimed mutual exclusivity. -/
theorem c1_counterexample :
    updateStatsCounts [childOverdueAndDueSoon] 0 = (1, 1, 0) ∧
      (updateDefaultersList [childOverdueAndDueSoon] 0).map (·.regNo) = ["001/2026"] ∧
      (updateDueSoonList [childOverdueAndDueSoon] 0).map (·.regNo) = ["001/2026"] ∧
      overdueDose overdueYesterday 0 = true ∧
      overdueYesterday ∈ childOverdueAndDueSoon.vaccinations := by decide

/-! ### C2: atomicity of the dose-set replace save path -/

/-- C2 (code bug): evaluation of the save path's crash semantics at a
concrete input.  With one prior persisted dose for child 1 and one
submitted dose, the observable states are the initial store, the store
after the un-transactioned delete — in which the child's prior dose set is
gone and nothing has replaced it — and the final store.  The middle state
is a partial dose set observable on a crash between delete and insert, so
the delete-then-insert is not atomic and the prior dose set is not left
intact. -/
theorem c2_crash_between_delete_and_insert_loses_doses :
    runBlocks [priorDose] (saveImmunizationBlocks 1 [resubmittedDose]) =
        [[priorDose], [], [resubmittedDose]] ∧
      ([] : List Dose) ≠ [priorDose] ∧ ([] : List Dose) ≠ [resubmittedDose] := by
  decide

/-! ### C3: day-granularity of the per-dose classification -/

theorem daysUntilOf_eq (t now : Int) : daysUntilOf t now = -((now - t) / 86400000) := by
  rw [daysUntilOf, msPerDay, Int.fdiv_eq_ediv _ (by decide)]

theorem daysOverdueOf_eq (t now : Int) : daysOverdueOf t now = (now - t) / 86400000 := by
  rw [daysOverdueOf, msPerDay, Int.fdiv_eq_ediv _ (by decide)]

/-- C3 (amended): the classification compares `nextVisit` to `now` as
instants (millisecond granularity), not at day granularity.  For a dose
with `nextVisit` set and `dateGiven` empty: it is overdue exactly when
`nextVisit < now` as instants; it is in the due-soon table exactly when
`now < nextVisit ≤ now + 7 days`; in the upcoming table (and the upcoming
stats flag) exactly when `now + 7 days < nextVisit ≤ now + 30 days`; the
due-soon stats flag also fires in the boundary case `nextVisit = now`; and
beyond 30 days the dose is in no bucket.  In particular a dose whose
`nextVisit` is today's midnight is overdue (with `daysOverdue = 0`)
whenever `now` is past midnight, rather than "not overdue" as the claim
states. -/
theorem c3_classification_at_instant_granularity (v : Dose) (t now : Int)
    (hnv : v.nextVisit = some t) (hdg : v.dateGiven = none) :
    (overdueDose v now = true ↔ t < now) ∧
      (tableDueSoonDose v now = true ↔ now < t ∧ t ≤ now + 7 * msPerDay) ∧
      (tableUpcomingDose v now = true ↔ now + 7 * msPerDay < t ∧ t ≤ now + 30 * msPerDay) ∧
      (statsDueSoonDose v now = true ↔ now ≤ t ∧ t ≤ now + 7 * msPerDay) ∧
      (statsUpcomingDose v now = true ↔ now + 7 * msPerDay < t ∧ t ≤ now + 30 * msPerDay) ∧
      (overdueDose v now = true → daysOverdueOf t now = (now - t) / 86400000) := by
  rcases v with ⟨cid, vac, dg, bn, pg, rm, nv, st⟩
  cases hnv
  cases hdg
  simp only [overdueDose, tableDueSoonDose, tableUpcomingDose, statsDueSoonDose,
    statsUpcomingDose, daysUntilOf_eq, msPerDay, Bool.and_eq_true, Bool.not_eq_true',
    decide_eq_true_eq, decide_eq_false_iff_not]
  refine ⟨by simp, ?_, ?_, ?_, ?_, fun _ => daysOverdueOf_eq t now⟩ <;>
    constructor <;> intro h <;> omega

/-- Witness for `c3_classification_at_instant_granularity` at a dose due in
three days. -/
theorem c3_classification_witness :
    tableDueSoonDose dueInThreeDays 0 = true ↔ (0 : Int) < 259200000 ∧ (259200000 : Int) ≤ 0 + 7 * msPerDay :=
  (c3_classification_at_instant_granularity dueInThreeDays 259200000 0 rfl rfl).2.1

/-- C3 counterexample: a dose whose `nextVisit` is today's midnight
(`daysUntil = 0`) evaluated at noon is classified overdue with
`daysOverdue = 0`, contradicting the claim that a dose with
`daysUntil = 0` is not overdue. -/
theorem c3_dose_due_today_is_overdue :
    daysUntilOf 0 43200000 = 0 ∧
      overdueDose ⟨1, "BCG at Birth", none, "", "", "", some 0, "scheduled"⟩ 43200000 = true ∧
      daysOverdueOf 0 43200000 = 0 := by
  decide

/-! ### C4: invariant of the persisted dose records -/

/-- C4 (amended): every dose record the save path persists satisfies: a
record with non-empty `dateGiven` has status `'completed'` and empty
`nextVisit`; a record with non-empty `nextVisit` and empty `dateGiven` has
status `'scheduled'`; but a record with both `dateGiven` and `nextVisit`
empty *is* persisted — with status `'pending'` — whenever any of
`batchNumber`, `placeGiven` or `remarks` is non-empty. -/
theorem c4_saved_dose_invariant (cid : Nat) (rows : List VaccRow)
    (booking : Option (Int × List String)) (d : Dose)
    (hd : d ∈ savedDoses cid rows booking) :
    (d.dateGiven ≠ none → d.status = "completed" ∧ d.nextVisit = none) ∧
      (d.nextVisit ≠ none → d.dateGiven = none → d.status = "scheduled") ∧
      (d.dateGiven = none → d.nextVisit = none →
        (¬ d.batchNumber = "" ∨ ¬ d.placeGiven = "" ∨ ¬ d.remarks = "") ∧
          d.status = "pending") := by
  unfold savedDoses at hd
  rw [List.mem_append] at hd
  rcases hd with hrow | hbook
  · rcases List.mem_map.mp hrow with ⟨r, hr, rfl⟩
    rcases List.mem_filter.mp hr with ⟨-, hdata⟩
    rcases hg : r.dateGiven with _ | g
    · refine ⟨?_, ?_, fun _ _ => ⟨?_, ?_⟩⟩
      · intro hcontra
        exact absurd (show (rowDose cid r).dateGiven = none by simp [rowDose, hg]) hcontra
      · intro hnv _
        exact absurd (show (rowDose cid r).nextVisit = none from rfl) hnv
      · rw [rowHasData, hg] at hdata
        simp only [rowDose]
        simp at hdata
        tauto
      · simp [rowDose, hg]
    · refine ⟨fun _ => ⟨by simp [rowDose, hg], rfl⟩, ?_, ?_⟩
      · intro hnv _
        exact absurd (show (rowDose cid r).nextVisit = none from rfl) hnv
      · intro hdg _
        rw [show (rowDose cid r).dateGiven = r.dateGiven from rfl, hg] at hdg
        exact Option.noConfusion hdg
  · have hmem : ∃ date vac, d = bookingDose cid date vac := by
      rcases booking with _ | ⟨date, vs⟩
      · simp at hbook
      · dsimp only at hbook
        split at hbook
        · simp at hbook
        · rcases List.mem_map.mp hbook with ⟨vac, -, rfl⟩
          exact ⟨date, vac, rfl⟩
    rcases hmem with ⟨date, vac, rfl⟩
    refine ⟨?_, fun _ _ => rfl, ?_⟩
    · intro h
      exact absurd (show (bookingDose cid date vac).dateGiven = none from rfl) h
    · intro _ h
      simp [bookingDose] at h

/-- Witness for `c4_saved_dose_invariant` at a booked dose. -/
theorem c4_saved_dose_witness :
    (bookingDose 1 5 "OPV1 at 6 weeks").status = "scheduled" :=
  (c4_saved_dose_invariant 1 [] (some (5, ["OPV1 at 6 weeks"]))
    (bookingDose 1 5 "OPV1 at 6 weeks") (by decide)).2.1 (by decide) rfl

/-- C4 counterexample: a valid modal row carrying only a batch number is
persisted as a dose record whose `dateGiven` and `nextVisit` are both
empty, contradicting the claim that such a record is never persisted. -/
theorem c4_batch_only_row_is_persisted :
    savedDoses 1 [batchOnlyRow] none =
        [⟨1, "BCG at Birth", none, "B1", "", "", none, "pending"⟩] ∧
      rowsValid [batchOnlyRow] = true := by
  decide

/-! ### C6: choice of the featured dose -/

theorem reduceMin_mem (d : Dose) (ds : List Dose) : reduceMin d ds ∈ d :: ds := by
  induction ds generalizing d with
  | nil => simp [reduceMin]
  | cons c cs ih =>
      rw [reduceMin, List.foldl_cons]
      have step : (if nvVal d < nvVal c then d else c) = d ∨
          (if nvVal d < nvVal c then d else c) = c := by
        split_ifs <;> simp
      have h := ih (if nvVal d < nvVal c then d else c)
      rw [reduceMin] at h
      rcases List.mem_cons.mp h with he | hm
      · rcases step with hs | hs <;> rw [he, hs] <;> simp
      · simp [List.mem_cons_of_mem, hm]

theorem reduceMin_le (d : Dose) (ds : List Dose) :
    ∀ x ∈ d :: ds, nvVal (reduceMin d ds) ≤ nvVal x := by
  induction ds generalizing d with
  | nil =>
      intro x hx
      rcases List.mem_singleton.mp hx with rfl
      simp [reduceMin]
  | cons c cs ih =>
      intro x hx
      have hstep : nvVal (if nvVal d < nvVal c then d else c) ≤ nvVal d ∧
          nvVal (if nvVal d < nvVal c then d else c) ≤ nvVal c := by
        split_ifs with h <;> constructor <;> omega
      have hfold : reduceMin d (c :: cs) = reduceMin (if nvVal d < nvVal c then d else c) cs := by
        rw [reduceMin, reduceMin, List.foldl_cons]
      rcases List.mem_cons.mp hx with rfl | hx'
      · calc nvVal (reduceMin x (c :: cs)) ≤ nvVal (if nvVal x < nvVal c then x else c) := by
              rw [hfold]
              exact ih _ _ (List.mem_cons_self _ _)
          _ ≤ nvVal x := hstep.1
      · rcases List.mem_cons.mp hx' with rfl | hx'' 
        · calc nvVal (reduceMin d (x :: cs)) ≤ nvVal (if nvVal d < nvVal x then d else x) := by
                rw [hfold]
                exact ih _ _ (List.mem_cons_self _ _)
            _ ≤ nvVal x := hstep.2
        · rw [hfold]
          exact ih _ x (List.mem_cons_of_mem _ hx'')

theorem reduceMin_last_wins (d : Dose) (ds : List Dose) (x : Dose)
    (h : nvVal x ≤ nvVal (reduceMin d ds)) : reduceMin d (ds ++ [x]) = x := by
  rw [reduceMin, List.foldl_append, List.foldl_cons, List.foldl_nil]
  rw [reduceMin] at h
  rw [if_neg (by omega)]

/-- C6 (amended): the featured dose chosen by the summary-table reduce is a
dose with the minimum `nextVisit` among the qualifying doses, but ties are
broken in favour of the *last* qualifying dose in input order (`prevDate <
currentDate ? prev : current` keeps `current` on equality), not the
first. -/
theorem c6_featured_dose_min_last_tie (d : Dose) (ds : List Dose) (x : Dose) :
    reduceMin d ds ∈ d :: ds ∧
      (∀ y ∈ d :: ds, nvVal (reduceMin d ds) ≤ nvVal y) ∧
      (nvVal x ≤ nvVal (reduceMin d ds) → reduceMin d (ds ++ [x]) = x) :=
  ⟨reduceMin_mem d ds, reduceMin_le d ds, reduceMin_last_wins d ds x⟩

/-- Witness for `c6_featured_dose_min_last_tie` at the concrete tied
pair. -/
theorem c6_featured_dose_witness :
    reduceMin tieDoseA [] ∈ [tieDoseA] ∧ reduceMin tieDoseA ([] ++ [tieDoseB]) = tieDoseB :=
  ⟨(c6_featured_dose_min_last_tie tieDoseA [] tieDoseB).1,
   (c6_featured_dose_min_last_tie tieDoseA [] tieDoseB).2.2 (by decide)⟩

/-- C6 counterexample: with two qualifying doses sharing the same
`nextVisit`, the due-soon table features the *second* dose in input order,
contradicting the claimed first-match-wins tie-break. -/
theorem c6_tie_features_last_dose :
    (updateDueSoonList [childTie] 0).map (·.dose) = [tieDoseB] ∧
      tieDoseA.nextVisit = tieDoseB.nextVisit ∧ tieDoseA ≠ tieDoseB ∧
      childTie.vaccinations = [tieDoseA, tieDoseB] := by
  decide

/-! ### C7: the cached `isDefaulter` recomputation -/

/-- C7 (amended): `updateDefaulterStatus` returns `true` exactly when some
dose has a non-empty `nextVisit` lying strictly before `now` — regardless
of whether that dose was recorded as given (`dateGiven` is not consulted).
On dose sets in which every dose with a `nextVisit` has an empty
`dateGiven` — the shape the save path itself persists — this coincides
with the claimed "overdue and not given" condition. -/
theorem c7_defaulter_ignores_dateGiven (vs : List Dose) (now : Int) :
    (updateDefaulterStatus vs now = true ↔
        ∃ v ∈ vs, ∃ t, v.nextVisit = some t ∧ t < now) ∧
      ((∀ v ∈ vs, v.nextVisit.isSome → v.dateGiven = none) →
        updateDefaulterStatus vs now = claimDefaulterPred vs now) := by
  constructor
  · rw [updateDefaulterStatus, List.any_eq_true]
    constructor
    · rintro ⟨v, hv, hp⟩
      rcases hnv : v.nextVisit with _ | t
      · rw [hnv] at hp
        simp at hp
      · rw [hnv] at hp
        simp at hp
        exact ⟨v, hv, t, hnv, hp⟩
    · rintro ⟨v, hv, t, hnv, ht⟩
      refine ⟨v, hv, ?_⟩
      rw [hnv]
      simpa using ht
  · intro hshape
    rw [updateDefaulterStatus, claimDefaulterPred]
    induction vs with
    | nil => rfl
    | cons v vs ih =>
        rw [List.any_cons, List.any_cons,
          ih fun w hw => hshape w (List.mem_cons_of_mem _ hw)]
        rcases hnv : v.nextVisit with _ | t
        · simp [hnv]
        · have hdg : v.dateGiven = none := hshape v (List.mem_cons_self _ _) (by rw [hnv]; rfl)
          simp [hnv, hdg]

/-- Witness for `c7_defaulter_ignores_dateGiven` at a concrete scheduled
overdue dose. -/
theorem c7_defaulter_witness :
    updateDefaulterStatus [overdueYesterday] 0 = claimDefaulterPred [overdueYesterday] 0 :=
  (c7_defaulter_ignores_dateGiven [overdueYesterday] 0).2 (by decide)

/-- C7 counterexample: a dose recorded as given (`dateGiven` non-empty)
whose stale `nextVisit` lies in the past makes `updateDefaulterStatus`
return `true`, although no dose satisfies the claim's "passed without
being recorded as given" condition. -/
theorem c7_given_dose_still_flags_defaulter :
    updateDefaulterStatus [staleCompletedDose] 0 = true ∧
      claimDefaulterPred [staleCompletedDose] 0 = false ∧
      staleCompletedDose.dateGiven ≠ none := by
  decide

/-! ### C8: restore fails fast on format errors and replaces atomically -/

/-- C8 (confirmed): a backup document missing the `children` or
`vaccinations` collection makes restore fail with the format error before
any mutation, leaving the single observable state equal to the initial
store; and for any document the observable states of a restore run are
only the fully-old and the fully-new store, because the whole
clear-then-bulk-insert runs inside a single transaction block. -/
theorem c8_restore_format_check_and_atomicity (doc : BackupDoc) (s0 : AppStore) :
    (restoreBlocks doc = .error .formatError ↔
        doc.children = none ∨ doc.vaccinations = none) ∧
      (doc.children = none ∨ doc.vaccinations = none → restoreStates doc s0 = [s0]) ∧
      (∀ st ∈ restoreStates doc s0, st = s0 ∨ st = restoreTransaction doc s0) := by
  have hcases : (doc.children.isNone || doc.vaccinations.isNone) = true ↔
      doc.children = none ∨ doc.vaccinations = none := by
    rw [Bool.or_eq_true, Option.isNone_iff_eq_none, Option.isNone_iff_eq_none]
  rcases h : (doc.children.isNone || doc.vaccinations.isNone) with _ | _
  · have hnone : ¬(doc.children = none ∨ doc.vaccinations = none) := by
      rw [← hcases, h]
      simp
    refine ⟨⟨fun he => absurd ?_ hnone, fun hn => absurd hn hnone⟩,
      fun hn => absurd hn hnone, ?_⟩
    · rw [restoreBlocks, if_neg (by rw [h]; simp)] at he
      exact Except.noConfusion he
    · intro st hst
      rw [restoreStates, restoreBlocks, if_neg (by rw [h]; simp)] at hst
      rcases List.mem_cons.mp hst with rfl | hst'
      · exact Or.inl rfl
      · rcases List.mem_cons.mp hst' with rfl | hst''
        · exact Or.inr rfl
        · simp at hst''
  · have hsome : doc.children = none ∨ doc.vaccinations = none := hcases.mp h
    have hstates : restoreStates doc s0 = [s0] := by
      rw [restoreStates, restoreBlocks, if_pos h]
    refine ⟨⟨fun _ => hsome, fun _ => ?_⟩, fun _ => hstates, ?_⟩
    · rw [restoreBlocks, if_pos h]
    · intro st hst
      rw [hstates] at hst
      rcases List.mem_singleton.mp hst with rfl
      exact Or.inl rfl

/-- Witness for `c8_restore_format_check_and_atomicity`: a document missing
its `vaccinations` key fails with the format error and leaves the store
untouched. -/
theorem c8_restore_witness :
    restoreBlocks ⟨some [], none, none⟩ = .error .formatError ∧
      restoreStates ⟨some [], none, none⟩ ⟨[], [], [⟨1, "HC"⟩]⟩ = [⟨[], [], [⟨1, "HC"⟩]⟩] :=
  ⟨(c8_restore_format_check_and_atomicity ⟨some [], none, none⟩ ⟨[], [], [⟨1, "HC"⟩]⟩).1.mpr
      (Or.inr rfl),
   (c8_restore_format_check_and_atomicity ⟨some [], none, none⟩ ⟨[], [], [⟨1, "HC"⟩]⟩).2.1
      (Or.inr rfl)⟩

/-! ### C9: the static vaccination schedule -/

/-- C9 (amended): the static schedule is a fixed ordered list of exactly
34 vaccine-label strings (not 33), and the bookable-vaccine set offered by
the booking dialog is always an order-preserving sub-list of it, so the
schedule serves as the canonical set of dosable vaccines and as display
order. -/
theorem c9_schedule_is_static_list_of_34 :
    vaccinationSchedule.length = 34 ∧
      ∀ (ch : Child) (unsaved : List (String × String)),
        (availableVaccines ch unsaved).Sublist vaccinationSchedule := by
  refine ⟨by decide, fun ch unsaved => ?_⟩
  simp only [availableVaccines]
  exact List.filter_sublist _

/-- C9 counterexample: the schedule does not have 33 entries. -/
theorem c9_schedule_not_33 : vaccinationSchedule.length ≠ 33 := by decide

/-! ### C10: all-or-nothing verification of the security answers -/

theorem verifyAnswersAux_iff (qs : List SecurityQA) (ans : Nat → String) :
    ∀ i, verifyAnswersAux qs ans i = true ↔
      ∀ j q, qs.get? j = some q →
        toLowerStr (trimStr (ans (i + j))) = toLowerStr q.answer := by
  induction qs with
  | nil => intro i; simp [verifyAnswersAux]
  | cons q rest ih =>
      intro i
      rw [verifyAnswersAux, Bool.and_eq_true, decide_eq_true_eq, ih (i + 1)]
      constructor
      · rintro ⟨hhead, htail⟩ j q' hq'
        match j with
        | 0 =>
            rw [List.get?_cons_zero] at hq'
            cases Option.some.inj hq'
            simpa using hhead
        | j' + 1 =>
            rw [List.get?_cons_succ] at hq'
            have := htail j' q' hq'
            rwa [show i + 1 + j' = i + (j' + 1) by omega] at this
      · intro h
        refine ⟨by simpa using h 0 q rfl, fun j' q' hq' => ?_⟩
        have := h (j' + 1) q' (by rwa [List.get?_cons_succ])
        rwa [show i + (j' + 1) = i + 1 + j' by omega] at this

/-- C10 (amended): recovery step 2 succeeds if and only if, for every
stored question, the user's trimmed and lower-cased answer equals the
*lower-cased* stored answer (the stored answer is case-folded before the
comparison, not matched verbatim); and a single mismatching answer fails
the whole step even when all others match. -/
theorem c10_all_answers_casefolded_both_sides (qs : List SecurityQA) (ans : Nat → String) :
    (verifySecurityAnswers qs ans = true ↔
        ∀ j q, qs.get? j = some q →
          toLowerStr (trimStr (ans j)) = toLowerStr q.answer) ∧
      (∀ j q, qs.get? j = some q →
        toLowerStr (trimStr (ans j)) ≠ toLowerStr q.answer →
        verifySecurityAnswers qs ans = false) := by
  have base := verifyAnswersAux_iff qs ans 0
  simp only [Nat.zero_add] at base
  refine ⟨base, fun j q hq hne => ?_⟩
  rcases hb : verifySecurityAnswers qs ans with _ | _
  · rfl
  · exact absurd (base.mp hb j q hq) hne

/-- Witness for `c10_all_answers_casefolded_both_sides`: one wrong answer
fails the whole step. -/
theorem c10_single_wrong_answer_fails :
    verifySecurityAnswers [⟨"Q1", "blue"⟩, ⟨"Q2", "rice"⟩]
        (fun i => if i = 0 then "blue" else "beans") = false :=
  (c10_all_answers_casefolded_both_sides [⟨"Q1", "blue"⟩, ⟨"Q2", "rice"⟩]
      (fun i => if i = 0 then "blue" else "beans")).2 1 ⟨"Q2", "rice"⟩ rfl (by decide)

/-- C10 counterexample: with a stored answer containing upper case, the
user's verbatim re-entry of the stored answer succeeds in the code, while
the claim's predicate — the trimmed, case-folded user answer must equal
the stored answer exactly — is false, so the claimed "if and only if"
fails. -/
theorem c10_stored_answer_not_matched_verbatim :
    verifySecurityAnswers [⟨"Q", "Blue"⟩] (fun _ => "Blue") = true ∧
      claimAnswersPred [⟨"Q", "Blue"⟩] (fun _ => "Blue") = false := by
  decide

/-! ### C5: registration-number generation -/

/-- Decimal value of a digit-char list, most significant first (left
inverse of `natCharsAux` on its image). -/
def parseDigits (l : List Char) : Nat :=
  l.foldl (fun a c => 10 * a + (c.toNat - 48)) 0

theorem parseDigits_append_singleton (l : List Char) (c : Char) :
    parseDigits (l ++ [c]) = 10 * parseDigits l + (c.toNat - 48) := by
  rw [parseDigits, List.foldl_append, List.foldl_cons, List.foldl_nil, parseDigits]

theorem digitChar_toNat (r : Nat) (h : r < 10) : (Char.ofNat (48 + r)).toNat = 48 + r := by
  interval_cases r <;> decide

theorem natCharsAux_zero (fuel : Nat) : natCharsAux fuel 0 = [] := by
  cases fuel <;> rfl

theorem parseDigits_natCharsAux (fuel n : Nat) (hn : 0 < n) (hf : n ≤ fuel) :
    parseDigits (natCharsAux fuel n) = n := by
  induction fuel generalizing n with
  | zero => omega
  | succ fuel ih =>
      rcases n with _ | m
      · omega
      · rw [natCharsAux, parseDigits_append_singleton,
          digitChar_toNat _ (Nat.mod_lt _ (by omega))]
        rcases Nat.eq_zero_or_pos ((m + 1) / 10) with hq | hq
        · rw [hq, natCharsAux_zero]
          have : (m + 1) % 10 = m + 1 := Nat.mod_eq_of_lt (by omega)
          simp [parseDigits, this]
          try omega
        · rw [ih _ hq (by omega)]
          omega

theorem parseDigits_natChars (n : Nat) : parseDigits (natChars n) = n := by
  rcases Nat.eq_zero_or_pos n with rfl | hn
  · decide
  · rw [natChars, if_neg (by omega)]
    exact parseDigits_natCharsAux n n hn le_rfl

theorem parseDigits_replicate_zero_append (k : Nat) (l : List Char) :
    parseDigits (List.replicate k '0' ++ l) = parseDigits l := by
  induction k with
  | zero => rfl
  | succ k ih =>
      rw [List.replicate_succ, List.cons_append]
      show parseDigits (List.replicate k '0' ++ l) = _
      exact ih

theorem parseDigits_padStart3 (l : List Char) :
    parseDigits (padStart3 l) = parseDigits l :=
  parseDigits_replicate_zero_append _ l

theorem natCharsAux_digits (fuel n : Nat) :
    ∀ c ∈ natCharsAux fuel n, c.isDigit = true := by
  induction fuel generalizing n with
  | zero => intro c hc; simp [natCharsAux] at hc
  | succ fuel ih =>
      rcases n with _ | m
      · intro c hc
        simp [natCharsAux] at hc
      · intro c hc
        rw [natCharsAux] at hc
        rcases List.mem_append.mp hc with h | h
        · exact ih _ c h
        · rcases List.mem_singleton.mp h with rfl
          have hr : (m + 1) % 10 < 10 := Nat.mod_lt _ (by omega)
          interval_cases h : ((m + 1) % 10) <;> decide

theorem natChars_digits (n : Nat) : ∀ c ∈ natChars n, c.isDigit = true := by
  rcases Nat.eq_zero_or_pos n with rfl | hn
  · intro c hc
    rcases List.mem_singleton.mp hc with rfl
    decide
  · rw [natChars, if_neg (by omega)]
    exact natCharsAux_digits n n

theorem padStart3_digits (l : List Char) (hl : ∀ c ∈ l, c.isDigit = true) :
    ∀ c ∈ padStart3 l, c.isDigit = true := by
  intro c hc
  rcases List.mem_append.mp hc with h | h
  · rcases List.eq_of_mem_replicate h with rfl
    decide
  · exact hl c h

theorem digit_ne_slash (c : Char) (h : c.isDigit = true) : ¬ c = '/' := by
  intro rfl_h
  rw [rfl_h] at h
  exact Bool.noConfusion h

theorem append_slash_inj :
    ∀ (l1 : List Char) (r1 : List Char) (l2 r2 : List Char),
      (∀ c ∈ l1, ¬ c = '/') → (∀ c ∈ l2, ¬ c = '/') →
      l1 ++ '/' :: r1 = l2 ++ '/' :: r2 → l1 = l2 ∧ r1 = r2 := by
  intro l1
  induction l1 with
  | nil =>
      intro r1 l2 r2 _ h2 he
      rcases l2 with _ | ⟨c2, l2'⟩
      · simpa using he
      · rw [List.nil_append, List.cons_append] at he
        rcases List.cons.inj he with ⟨hc, -⟩
        exact absurd hc.symm (h2 c2 (List.mem_cons_self _ _))
  | cons c1 l1' ih =>
      intro r1 l2 r2 h1 h2 he
      rcases l2 with _ | ⟨c2, l2'⟩
      · rw [List.cons_append, List.nil_append] at he
        rcases List.cons.inj he with ⟨hc, -⟩
        exact absurd hc (h1 c1 (List.mem_cons_self _ _))
      · rw [List.cons_append, List.cons_append] at he
        rcases List.cons.inj he with ⟨hc, htail⟩
        rcases ih r1 l2' r2 (fun c hc' => h1 c (List.mem_cons_of_mem _ hc'))
          (fun c hc' => h2 c (List.mem_cons_of_mem _ hc')) htail with ⟨hl, hr⟩
        exact ⟨by rw [hc, hl], hr⟩

theorem formatRegNo_inj (c1 c2 year : Nat)
    (h : formatRegNo c1 year = formatRegNo c2 year) : c1 = c2 := by
  rw [formatRegNo, formatRegNo] at h
  have hdata : padStart3 (natChars c1) ++ '/' :: natChars year =
      padStart3 (natChars c2) ++ '/' :: natChars year := by
    have := congrArg String.data h
    simpa using this
  have hpads := append_slash_inj _ _ _ _
    (fun c hc => digit_ne_slash c (padStart3_digits _ (natChars_digits c1) c hc))
    (fun c hc => digit_ne_slash c (padStart3_digits _ (natChars_digits c2) c hc)) hdata
  have hparse : parseDigits (padStart3 (natChars c1)) = parseDigits (padStart3 (natChars c2)) := by
    rw [hpads.1]
  rwa [parseDigits_padStart3, parseDigits_padStart3,
    parseDigits_natChars, parseDigits_natChars] at hparse

theorem regNoLoop_spec (cs : List Child) (year : Nat) :
    ∀ (fuel count : Nat),
      count ≤ regNoLoop cs year fuel count ∧
      (∀ j, count ≤ j → j < regNoLoop cs year fuel count →
        regNoTaken cs (formatRegNo j year) = true) ∧
      (regNoTaken cs (formatRegNo (regNoLoop cs year fuel count) year) = false ∨
        regNoLoop cs year fuel count = count + fuel) := by
  intro fuel
  induction fuel with
  | zero =>
      intro count
      refine ⟨le_rfl, fun j h1 h2 => absurd h1 (by rw [regNoLoop] at h2; omega), Or.inr ?_⟩
      rw [regNoLoop]
      omega
  | succ fuel ih =>
      intro count
      rcases ht : regNoTaken cs (formatRegNo count year) with _ | _
      · have hstop : regNoLoop cs year (fuel + 1) count = count := by
          simp [regNoLoop, ht]
        rw [hstop]
        exact ⟨le_rfl, fun j h1 h2 => absurd h1 (by omega), Or.inl ht⟩
      · have hstep : regNoLoop cs year (fuel + 1) count = regNoLoop cs year fuel (count + 1) := by
          rw [regNoLoop, ht]
          simp
        rcases ih (count + 1) with ⟨hle, hmid, hend⟩
        rw [hstep]
        refine ⟨by omega, fun j h1 h2 => ?_, ?_⟩
        · rcases Nat.eq_or_lt_of_le h1 with rfl | h1'
          · exact ht
          · exact hmid j (by omega) h2
        · rcases hend with h | h
          · exact Or.inl h
          · exact Or.inr (by omega)

theorem regNo_pigeonhole (cs : List Child) (year base : Nat) :
    ∃ i, i ≤ cs.length ∧ regNoTaken cs (formatRegNo (base + i) year) = false := by
  by_contra hcon
  push_neg at hcon
  have htaken : ∀ i ≤ cs.length, regNoTaken cs (formatRegNo (base + i) year) = true := by
    intro i hi
    rcases h : regNoTaken cs (formatRegNo (base + i) year) with _ | _
    · exact absurd h (hcon i hi)
    · rfl
  have hnodup : ((List.range (cs.length + 1)).map
      (fun i => formatRegNo (base + i) year)).Nodup := by
    refine List.Nodup.map ?_ (List.nodup_range _)
    intro i j hij
    have := formatRegNo_inj (base + i) (base + j) year hij
    omega
  have hsub : ((List.range (cs.length + 1)).map (fun i => formatRegNo (base + i) year)) ⊆
      cs.map (·.regNo) := by
    intro s hs
    rcases List.mem_map.mp hs with ⟨i, hi, rfl⟩
    have hi' : i ≤ cs.length := by
      have := List.mem_range.mp hi
      omega
    have hta := htaken i hi'
    rw [regNoTaken, List.any_eq_true] at hta
    rcases hta with ⟨c, hc, he⟩
    have heq : c.regNo = formatRegNo (base + i) year := by simpa using he
    exact heq ▸ List.mem_map_of_mem (·.regNo) hc
  have hlen := (hnodup.subperm hsub).length_le
  rw [List.length_map, List.length_map, List.length_range] at hlen
  omega

theorem generateRegNo_not_taken (cs : List Child) (year : Nat) :
    regNoTaken cs (generateRegNo cs year) = false := by
  rw [generateRegNo]
  rcases (regNoLoop_spec cs year (cs.length + 1) (regNoBase cs year)).2.2 with h | h
  · exact h
  · exfalso
    rcases regNo_pigeonhole cs year (regNoBase cs year) with ⟨i, hi, hfree⟩
    have hmid := (regNoLoop_spec cs year (cs.length + 1) (regNoBase cs year)).2.1
    have htaken := hmid (regNoBase cs year + i) (by omega) (by rw [h]; omega)
    rw [htaken] at hfree
    exact Bool.noConfusion hfree

theorem natCharsAux_length_le (fuel : Nat) :
    ∀ n k, n ≤ fuel → n < 10 ^ k → (natCharsAux fuel n).length ≤ k := by
  induction fuel with
  | zero =>
      intro n k _ _
      simp [natCharsAux]
  | succ fuel ih =>
      intro n k hf hk
      rcases n with _ | m
      · simp [natCharsAux]
      · rw [natCharsAux, List.length_append, List.length_singleton]
        have hk1 : 1 ≤ k := by
          by_contra hc
          push_neg at hc
          interval_cases k
          simp at hk
        have hpow : 10 ^ (k - 1) * 10 = 10 ^ k := by
          rw [← pow_succ]
          congr 1
          omega
        have hdiv : (m + 1) / 10 < 10 ^ (k - 1) := by
          rw [Nat.div_lt_iff_lt_mul (by omega)]
          omega
        have := ih ((m + 1) / 10) (k - 1) (by omega) hdiv
        omega

theorem le_natCharsAux_length (fuel : Nat) :
    ∀ n k, n ≤ fuel → 10 ^ k ≤ n → k + 1 ≤ (natCharsAux fuel n).length := by
  induction fuel with
  | zero =>
      intro n k hf hn
      have := Nat.one_le_two_pow (n := k)
      have hp : 1 ≤ 10 ^ k := Nat.one_le_pow _ _ (by omega)
      omega
  | succ fuel ih =>
      intro n k hf hn
      have hp : 1 ≤ 10 ^ k := Nat.one_le_pow _ _ (by omega)
      rcases n with _ | m
      · omega
      · rw [natCharsAux, List.length_append, List.length_singleton]
        rcases k with _ | k'
        · omega
        · have hpow : 10 ^ (k' + 1) = 10 ^ k' * 10 := pow_succ 10 k'
          have hdivge : 10 ^ k' ≤ (m + 1) / 10 := by
            rw [Nat.le_div_iff_mul_le (by omega)]
            omega
          have := ih ((m + 1) / 10) k' (by omega) hdivge
          omega

theorem matchesRegNoPattern_of (l m : List Char) (hl : l.length = 3) (hm : m.length = 4)
    (hld : ∀ c ∈ l, c.isDigit = true) (hmd : ∀ c ∈ m, c.isDigit = true) :
    matchesRegNoPattern (String.mk (l ++ '/' :: m)) = true := by
  obtain ⟨a, b, c, rfl⟩ := List.length_eq_three.mp hl
  rcases m with _ | ⟨d, m⟩
  · simp at hm
  rcases m with _ | ⟨e, m⟩
  · simp at hm
  rcases m with _ | ⟨f, m⟩
  · simp at hm
  rcases m with _ | ⟨g, m⟩
  · simp at hm
  rcases m with _ | ⟨x, m⟩
  · rw [matchesRegNoPattern]
    simp only [List.cons_append, List.nil_append]
    simp [hld a (by simp), hld b (by simp), hld c (by simp),
      hmd d (by simp), hmd e (by simp), hmd f (by simp), hmd g (by simp)]
  · simp at hm

theorem matchesRegNoPattern_format (k y : Nat) (hk1 : 1 ≤ k) (hk : k ≤ 999)
    (hy1 : 1000 ≤ y) (hy : y ≤ 9999) :
    matchesRegNoPattern (formatRegNo k y) = true := by
  have h3 : (10 : Nat) ^ 3 = 1000 := by norm_num
  have h4 : (10 : Nat) ^ 4 = 10000 := by norm_num
  have hkchars : (natChars k).length ≤ 3 := by
    rw [natChars, if_neg (by omega)]
    exact natCharsAux_length_le k k 3 le_rfl (by omega)
  have hpadlen : (padStart3 (natChars k)).length = 3 := by
    rw [padStart3, List.length_append, List.length_replicate]
    omega
  have hylen : (natChars y).length = 4 := by
    rw [natChars, if_neg (by omega)]
    have hle := natCharsAux_length_le y y 4 le_rfl (by omega)
    have hge := le_natCharsAux_length y y 3 le_rfl (by omega)
    omega
  exact matchesRegNoPattern_of _ _ hpadlen hylen
    (padStart3_digits _ (natChars_digits k)) (natChars_digits y)

/-- C5 (amended): the generated registration number never collides with
any existing child's `regNo` (so it is unique within the facility and
year); it is formed as `formatRegNo k year` where `k` is the least
collision-free count at or above the zero-padded per-year count plus one;
and it matches the pattern `^\d{3}/\d{4}$` whenever that final count is at
most 999 (with a four-digit year) — the 1000th registration of a year
instead produces a four-digit sequence part. -/
theorem c5_regno_unique_and_padded (cs : List Child) (year : Nat) :
    (∀ c ∈ cs, c.regNo ≠ generateRegNo cs year) ∧
      (∃ k, generateRegNo cs year = formatRegNo k year ∧
        regNoBase cs year ≤ k ∧
        (∀ j, regNoBase cs year ≤ j → j < k → regNoTaken cs (formatRegNo j year) = true) ∧
        regNoTaken cs (formatRegNo k year) = false ∧
        (k ≤ 999 → 1000 ≤ year → year ≤ 9999 →
          matchesRegNoPattern (generateRegNo cs year) = true)) := by
  have hfree := generateRegNo_not_taken cs year
  constructor
  · intro c hc
    rw [regNoTaken, List.any_eq_false] at hfree
    have := hfree c hc
    simpa using this
  · refine ⟨regNoLoop cs year (cs.length + 1) (regNoBase cs year), rfl,
      (regNoLoop_spec cs year (cs.length + 1) (regNoBase cs year)).1,
      (regNoLoop_spec cs year (cs.length + 1) (regNoBase cs year)).2.1, ?_, ?_⟩
    · rw [generateRegNo] at hfree
      exact hfree
    · intro hk hy1 hy2
      rw [generateRegNo]
      refine matchesRegNoPattern_format _ year ?_ hk hy1 hy2
      have hbk := (regNoLoop_spec cs year (cs.length + 1) (regNoBase cs year)).1
      have hb1 : 1 ≤ regNoBase cs year := by
        rw [regNoBase]
        omega
      omega

/-- Witness for `c5_regno_unique_and_padded` on an empty register in 2026:
the generated number is `001/2026` and the pattern implication applies. -/
theorem c5_regno_witness :
    matchesRegNoPattern (generateRegNo [] 2026) = true := by
  obtain ⟨k, hk, -, -, -, hpat⟩ := (c5_regno_unique_and_padded [] 2026).2
  have hk1 : k = 1 := by
    refine formatRegNo_inj k 1 2026 ?_
    rw [← hk]
    decide
  exact hpat (by omega) (by omega) (by omega)

set_option maxRecDepth 100000 in
/-- C5 counterexample: with 999 children already created in 2026, the next
generated registration number is `1000/2026`, which does not match the
claimed pattern `^\d{3}/\d{4}$`. -/
theorem c5_thousandth_regno_breaks_pattern :
    generateRegNo children999 2026 = "1000/2026" ∧
      matchesRegNoPattern "1000/2026" = false := by
  decide

end ImmunizationTracker
